import Mathlib

/-!
Verification of the schema-driven extraction engine of `scholar.py`.

The Python module is shallowly embedded: the DOM library (BeautifulSoup) is an
external collaborator and is modelled by a small tag-tree parser; Python
exceptions are modelled by the `Exc` type and fallible code returns
`Except Exc _`; Python's `int(...)` / `unicode(...)` coercions are modelled by
`PyType`.  A `FieldSet` value models a FieldSet subclass (its `find_all`
attribute and its `Field`-valued class attributes, in `dir()` order, i.e.
alphabetically); an `Instance` models one constructed FieldSet object.
-/

namespace Scholar

/-- The Python exception kinds that the embedded code can raise.  The
`except (TypeError, AttributeError)` clause of `Parser.parse` distinguishes
exactly `typeError` and `attributeError`; `valueError` models `int()` failing
on non-numeric text and `keyError` models `tag['href']` on a tag without that
attribute. -/
inductive Exc where
  | attributeError
  | typeError
  | valueError
  | keyError
deriving DecidableEq

/-- A Python value stored in a field of a record: `None`, a string, or an int. -/
inductive Value where
  | vNone
  | vStr (s : String)
  | vInt (n : Int)
deriving DecidableEq

/-- The two coercion callables used by the module: `unicode`/`str` (the
`Field` default) and `int`. -/
inductive PyType where
  | pyStr
  | pyInt
deriving DecidableEq

/-- ASCII whitespace. -/
def isSpaceChar (c : Char) : Bool := c == ' ' || c == '\n' || c == '\t' || c == '\r'

/-- Drop leading whitespace. -/
def skipSpacesL : List Char → List Char
  | [] => []
  | c :: cs => if isSpaceChar c then skipSpacesL cs else c :: cs

/-- Python's `str.strip()`: remove leading and trailing whitespace. -/
def pyStrip (s : String) : String :=
  String.mk (List.reverse (skipSpacesL (List.reverse (skipSpacesL s.toList))))

/-- The numeric value of a digit run (most significant first). -/
def digitsToNat : List Char → Nat → Nat
  | [], acc => acc
  | c :: cs, acc => digitsToNat cs (acc * 10 + (c.toNat - 48))

/-- Python's `int(s)` on a string: an optional sign followed by one or more
decimal digits; anything else raises `ValueError` (modelled as `none`). -/
def pyInt? (s : String) : Option Int :=
  match s.toList with
  | [] => none
  | '-' :: ds =>
    if !ds.isEmpty && ds.all Char.isDigit then some (-(digitsToNat ds 0 : Int)) else none
  | '+' :: ds =>
    if !ds.isEmpty && ds.all Char.isDigit then some ((digitsToNat ds 0 : Int)) else none
  | ds =>
    if ds.all Char.isDigit then some ((digitsToNat ds 0 : Int)) else none

/-- Calling the coercion on raw text: `str(s)` is the identity; `int(s)`
parses an integer and raises `ValueError` on non-numeric text. -/
def PyType.call : PyType → String → Except Exc Value
  | .pyStr, s => .ok (.vStr s)
  | .pyInt, s =>
    match pyInt? s with
    | some n => .ok (.vInt n)
    | none => .error .valueError

/-- A DOM node: an element with a tag name, attributes and children, or a
text node.  This models the BeautifulSoup node tree. -/
inductive Node where
  | elem (tag : String) (attrs : List (String × String)) (children : List Node)
  | text (s : String)

/-- The attribute value of an element (`None` for text nodes / absent keys). -/
def Node.attr : Node → String → Option String
  | .elem _ attrs _, k => attrs.lookup k
  | .text _, _ => none

/-- The tag name of an element node. -/
def Node.tag : Node → Option String
  | .elem t _ _ => some t
  | .text _ => none

mutual

/-- All element/text descendants of a node in document (pre-)order, the node
itself excluded — the nodes `soup.find` / `soup.find_all` search. -/
def Node.descendants : Node → List Node
  | .text _ => []
  | .elem _ _ cs => Node.descList cs

/-- Pre-order listing of a forest: each root followed by its descendants. -/
def Node.descList : List Node → List Node
  | [] => []
  | c :: cs => c :: Node.descendants c ++ Node.descList cs

end

mutual

/-- The concatenated text of a node, modelling BeautifulSoup's `.text`. -/
def Node.text_of : Node → String
  | .text s => s
  | .elem _ _ cs => Node.textList cs

/-- Concatenated text of a forest of nodes. -/
def Node.textList : List Node → String
  | [] => ""
  | c :: cs => Node.text_of c ++ Node.textList cs

end

/-- BeautifulSoup's `.string`: the single string child of a tag, if the tag
has exactly one child and it is a text node (simplified model). -/
def Node.string : Node → Option String
  | .elem _ _ [.text s] => some s
  | _ => none

/-- Does the `class` attribute of the node contain `c` as a whitespace
separated token?  Models BeautifulSoup's `class_=` filter. -/
def hasClassToken (n : Node) (c : String) : Bool :=
  match n.attr "class" with
  | some cls => (cls.splitOn " ").contains c
  | none => false

/-! ### Regular-expression helpers

The `Article` field locators use a handful of fixed regular expressions
(`re.search`, `re.sub`).  Each is modelled by a direct string scanner with the
same observable behaviour on the pattern it implements. -/

/-- Is `pat` a prefix of `cs`? -/
def listStartsWith : List Char → List Char → Bool
  | [], _ => true
  | _ :: _, [] => false
  | p :: ps, c :: cs => p == c && listStartsWith ps cs

/-- The maximal leading run of decimal digits. -/
def takeDigits : List Char → List Char
  | [] => []
  | c :: cs => if c.isDigit then c :: takeDigits cs else []

/-- The maximal leading run of uppercase letters. -/
def takeUpper : List Char → List Char
  | [] => []
  | c :: cs => if c.isUpper then c :: takeUpper cs else []

/-- Scanner for `re.search(r'Cited by ([0-9]+)', s)`: at the leftmost
position where the whole pattern matches, return group 1 (the digit run). -/
def citedByScan : List Char → Option String
  | [] => none
  | c :: cs =>
    if listStartsWith "Cited by ".toList (c :: cs) then
      let ds := takeDigits (List.drop 9 (c :: cs))
      if ds.isEmpty then citedByScan cs else some (String.mk ds)
    else citedByScan cs

/-- `re.search(r'Cited by ([0-9]+)', s)` returning group 1, `None` if the
pattern does not occur. -/
def citedByNum (s : String) : Option String := citedByScan s.toList

/-- Scanner for `re.search(r'All ([0-9]+) versions', s)`, returning group 1. -/
def allVersionsScan : List Char → Option String
  | [] => none
  | c :: cs =>
    if listStartsWith "All ".toList (c :: cs) then
      let ds := takeDigits (List.drop 4 (c :: cs))
      if !ds.isEmpty &&
          listStartsWith " versions".toList (List.drop (4 + ds.length) (c :: cs)) then
        some (String.mk ds)
      else allVersionsScan cs
    else allVersionsScan cs

/-- `re.search(r'All ([0-9]+) versions', s)` returning group 1. -/
def allVersionsNum (s : String) : Option String := allVersionsScan s.toList

/-- A word character in the sense of the regex `\b` boundary. -/
def isWordChar (c : Char) : Bool := c.isAlphanum || c == '_'

/-- Scanner for `re.search(r'\b\d{4}\b', s)`: a run of exactly four digits
delimited by word boundaries; `prev` is the character before the current
position. -/
def fourDigitScan : Option Char → List Char → Option String
  | _, [] => none
  | prev, c :: cs =>
    let bOk := match prev with
      | none => true
      | some p => !isWordChar p
    let run := takeDigits (c :: cs)
    if bOk && run.length == 4 then some (String.mk run)
    else fourDigitScan (some c) cs

/-- `re.search(r'\b\d{4}\b', s)` returning group 0. -/
def find4digit (s : String) : Option String := fourDigitScan none s.toList

/-- Fuel-driven scanner for `re.sub(r'\[[A-Z]+\]', '', s)`: drop every
bracketed run of uppercase letters. -/
def stripCapsF : Nat → List Char → List Char
  | 0, cs => cs
  | _ + 1, [] => []
  | fuel + 1, c :: cs =>
    if c == '[' then
      let us := takeUpper cs
      match us, List.drop us.length cs with
      | _ :: _, ']' :: rest => stripCapsF fuel rest
      | _, _ => c :: stripCapsF fuel cs
    else c :: stripCapsF fuel cs

/-- `re.sub(r'\[[A-Z]+\]', '', s)`. -/
def stripCaps (s : String) : String := String.mk (stripCapsF s.length s.toList)

/-! ### The document parser (external collaborator)

`BeautifulSoup(html)` is supplied by a third-party library; the spec treats
document parsing as a black box that never raises and yields a traversable
tree (an empty tree for empty input).  It is modelled by a small fuel-driven
tag-soup reader: tags, attributes (`k="v"`, `k='v'`, bare or valueless) and
text runs; comments, doctypes and entities are out of scope.  Only the
clause "empty or unparsable input yields a document with no matching
elements" matters to the claims. -/

/-- A character allowed in tag/attribute names. -/
def isNameChar (c : Char) : Bool := c.isAlphanum || c == '-' || c == '_' || c == ':'

/-- The maximal leading run of name characters. -/
def takeName : List Char → List Char
  | [] => []
  | c :: cs => if isNameChar c then c :: takeName cs else []

/-- Split at the first occurrence of `stop`, consuming it. -/
def takeUntil (stop : Char) : List Char → List Char × List Char
  | [] => ([], [])
  | c :: cs =>
    if c == stop then ([], cs)
    else
      let (a, r) := takeUntil stop cs
      (c :: a, r)

/-- The characters of a text run, up to (excluding) the next `<`. -/
def takeTextRun : List Char → List Char × List Char
  | [] => ([], [])
  | c :: cs =>
    if c == '<' then ([], c :: cs)
    else
      let (t, r) := takeTextRun cs
      (c :: t, r)

/-- Parse the attribute list of an open tag, through the closing `>`;
returns the attributes, whether the tag was self-closing, and the rest. -/
def parseAttrsF : Nat → List Char → List (String × String) × Bool × List Char
  | 0, cs => ([], false, cs)
  | fuel + 1, cs =>
    match skipSpacesL cs with
    | [] => ([], false, [])
    | '>' :: rest => ([], false, rest)
    | '/' :: '>' :: rest => ([], true, rest)
    | c :: cs2 =>
      if isNameChar c then
        let nm := takeName (c :: cs2)
        let afterName := List.drop nm.length (c :: cs2)
        match skipSpacesL afterName with
        | '=' :: v1 =>
          match skipSpacesL v1 with
          | '"' :: v2 =>
            let (val, r) := takeUntil '"' v2
            let (as_, sc, rest) := parseAttrsF fuel r
            ((String.mk nm, String.mk val) :: as_, sc, rest)
          | q :: v2 =>
            if q == Char.ofNat 39 then
              let (val, r) := takeUntil (Char.ofNat 39) v2
              let (as_, sc, rest) := parseAttrsF fuel r
              ((String.mk nm, String.mk val) :: as_, sc, rest)
            else
              let bv := takeName (q :: v2)
              let (as_, sc, rest) := parseAttrsF fuel (List.drop bv.length (q :: v2))
              ((String.mk nm, String.mk bv) :: as_, sc, rest)
          | [] => ([(String.mk nm, "")], false, [])
        | other =>
          let (as_, sc, rest) := parseAttrsF fuel other
          ((String.mk nm, "") :: as_, sc, rest)
      else parseAttrsF fuel cs2

/-- Parse a sequence of sibling nodes; a closing tag (consumed) or the end of
input terminates the sequence.  Returns the nodes and the remaining input. -/
def parseNodesF : Nat → List Char → List Node × List Char
  | 0, cs => ([], cs)
  | _ + 1, [] => ([], [])
  | _ + 1, '<' :: '/' :: cs =>
    let (_, rest) := takeUntil '>' cs
    ([], rest)
  | fuel + 1, '<' :: c :: cs =>
    if isNameChar c then
      let nm := takeName (c :: cs)
      let afterName := List.drop nm.length (c :: cs)
      let (attrs, selfC, rest) := parseAttrsF afterName.length afterName
      if selfC then
        let (sibs, rest2) := parseNodesF fuel rest
        (Node.elem (String.mk nm) attrs [] :: sibs, rest2)
      else
        let (children, rest2) := parseNodesF fuel rest
        let (sibs, rest3) := parseNodesF fuel rest2
        (Node.elem (String.mk nm) attrs children :: sibs, rest3)
    else
      let (sibs, rest) := parseNodesF fuel (c :: cs)
      (Node.text "<" :: sibs, rest)
  | fuel + 1, c :: cs =>
    let (txt, rest) := takeTextRun (c :: cs)
    let (sibs, rest2) := parseNodesF fuel rest
    (Node.text (String.mk txt) :: sibs, rest2)

/-- `BeautifulSoup(html)`: parse the raw text into a document tree.  Never
raises; empty input yields a document with no children. -/
def BeautifulSoup (html : String) : Node :=
  Node.elem "[document]" [] (parseNodesF (html.length + 1) html.toList).1

/-! ### Field, FieldSet and Instance (lines 46-122 of `scholar.py`) -/

/-- One `Field(find, type, default)` descriptor: a locator run against the
fragment (which may return text, return `None`, or raise), a coercion
callable and a default value. -/
structure Field where
  find : Node → Except Exc (Option String)
  type : PyType
  default : Value

/-- A FieldSet subclass, as a value: its `find_all` class attribute (`none`
models a subclass that does not define one) and its `Field`-valued class
attributes `(name, descriptor)` in `dir()` order.  As in a Python dict, the
field names are distinct. -/
structure FieldSet where
  find_all : Option (Node → Except Exc (List Node))
  fields : List (String × Field)

/-- A constructed FieldSet object: `_fields` plus the rebound per-field
instance attributes. -/
structure Instance where
  fields : List (String × Field)
  values : List (String × Value)

/-- `FieldSet.__init__` (lines 79-91): raise `AttributeError` unless the
subclass has a `find_all` attribute, then bind every declared field to its
descriptor's default. -/
def FieldSet.init (cls : FieldSet) : Except Exc Instance :=
  match cls.find_all with
  | none => .error .attributeError
  | some _ => .ok ⟨cls.fields, cls.fields.map (fun nf => (nf.1, nf.2.default))⟩

/-- `getattr(self, key)` for a field name (total here because `__init__`
binds every declared field). -/
def Instance.getattr (inst : Instance) (key : String) : Value :=
  (inst.values.lookup key).getD .vNone

/-- `setattr(inst, name, v)`: update the binding if the attribute exists,
append it otherwise (Python dict semantics, insertion order kept). -/
def setattrV (vals : List (String × Value)) (name : String) (v : Value) :
    List (String × Value) :=
  if (vals.lookup name).isSome then
    vals.map (fun p => if p.1 = name then (p.1, v) else p)
  else vals ++ [(name, v)]

/-- `field.find(match).strip()` (line 159): a locator error propagates, a
`None` result raises `AttributeError` (`None.strip()`), and text is
whitespace-stripped. -/
def stripped (f : Field) (frag : Node) : Except Exc String :=
  match f.find frag with
  | .error e => .error e
  | .ok none => .error .attributeError
  | .ok (some s) => .ok (pyStrip s)

/-- `field.type(field.find(match).strip())`: locate, strip, coerce. -/
def locateCoerce (f : Field) (frag : Node) : Except Exc Value :=
  match stripped f frag with
  | .error e => .error e
  | .ok s => f.type.call s

/-- The `try/except` of lines 158-161: a `TypeError` or `AttributeError`
from locating or coercing is absorbed into the field default; every other
exception propagates. -/
def extractValue (f : Field) (frag : Node) : Except Exc Value :=
  match locateCoerce f frag with
  | .ok v => .ok v
  | .error .typeError => .ok f.default
  | .error .attributeError => .ok f.default
  | .error e => .error e

/-- The per-field loop of lines 157-162: for each `(fieldname, field)` of
`inst._fields` in order, extract and `setattr` the value. -/
def applyFields (frag : Node) : List (String × Field) → Instance → Except Exc Instance
  | [], inst => .ok inst
  | nf :: rest, inst =>
    match extractValue nf.2 frag with
    | .error e => .error e
    | .ok v => applyFields frag rest ⟨inst.fields, setattrV inst.values nf.1 v⟩

/-- Lines 155-162: `inst = fieldset()` then the per-field loop on `match`. -/
def instantiateOn (cls : FieldSet) (frag : Node) : Except Exc Instance :=
  match FieldSet.init cls with
  | .error e => .error e
  | .ok inst => applyFields frag inst.fields inst

/-- The `for index, match in zip(range(0, max_results), matches)` loop body
applied to an already-truncated fragment list, appending one instance per
fragment in order; an exception mid-loop propagates. -/
def parseMatches (cls : FieldSet) : List Node → Except Exc (List Instance)
  | [] => .ok []
  | m :: ms =>
    match instantiateOn cls m with
    | .error e => .error e
    | .ok inst =>
      match parseMatches cls ms with
      | .error e => .error e
      | .ok rest => .ok (inst :: rest)

/-- `Parser.parse(html, fieldset, max_results)` (lines 147-166): build the
soup, read the `find_all` class attribute (an `AttributeError` if the class
lacks one), locate the fragments, and instantiate the first
`max_results` of them (`zip(range(0, max_results), matches)`, so a
non-positive cap retains nothing). -/
def Parser.parse (html : String) (fieldset : FieldSet) (max_results : Int) :
    Except Exc (List Instance) :=
  let soup := BeautifulSoup html
  match fieldset.find_all with
  | none => .error .attributeError
  | some fa =>
    match fa soup with
    | .error e => .error e
    | .ok ms => parseMatches fieldset (ms.take max_results.toNat)

/-! ### Serialization (`FieldSet.dumps`, lines 111-122) -/

/-- The three representations `dumps` can produce: the raw dictionary, a
JSON string, or the (opaque) pickle of the dictionary. -/
inductive Dumped where
  | dict (d : List (String × Value))
  | json (s : String)
  | pickle (d : List (String × Value))

/-- A JSON rendering of a value (escaping elided; no claim depends on it). -/
def Value.jsonRepr : Value → String
  | .vNone => "null"
  | .vStr s => "\"" ++ s ++ "\""
  | .vInt n => toString n

/-- A JSON rendering of the dictionary (modelling `json.dumps`). -/
def jsonDumps (d : List (String × Value)) : String :=
  "\x7b" ++ String.intercalate ", "
    (d.map (fun kv => "\"" ++ kv.1 ++ "\": " ++ kv.2.jsonRepr)) ++ "\x7d"

/-- The dictionary `dumps` builds: `(key, getattr(self, key))` for each key
of `_fields`, in order. -/
def recordMap (inst : Instance) : List (String × Value) :=
  inst.fields.map (fun nf => (nf.1, inst.getattr nf.1))

/-- `FieldSet.dumps(format)`: the representation selected by `format`;
anything other than `'json'` and `'pickle'` falls back to the raw
dictionary. -/
def FieldSet.dumps (inst : Instance) (format : Option String) : Dumped :=
  let d := inst.fields.map (fun nf => (nf.1, inst.getattr nf.1))
  match format with
  | some "json" => .json (jsonDumps d)
  | some "pickle" => .pickle d
  | _ => .dict d

/-! ### The `Article` concrete FieldSet (lines 172-204)

Each locator below embeds the corresponding lambda of the source.  Failure
modes follow Python: `soup.find(...)` returning `None` makes a subsequent
attribute access raise `AttributeError` and a subscript raise `TypeError`;
`tag['href']` on a tag without an `href` raises `KeyError`;
`re.search(...)` returning `None` makes `.group(...)` raise
`AttributeError`. -/

/-- `URL_ROOT` (line 172). -/
def URL_ROOT : String := "http://scholar.google.com"

/-- `find_all` (line 195): `soup.find(role='main').find_all(class_="gs_r")`.
When no element carries `role="main"`, the `find` returns `None` and the
`.find_all` access raises `AttributeError`. -/
def Article.find_all (soup : Node) : Except Exc (List Node) :=
  match List.find? (fun d => d.attr "role" == some "main") soup.descendants with
  | none => .error .attributeError
  | some m => .ok (m.descendants.filter (fun d => hasClassToken d "gs_r"))

/-- `title` (line 196): `re.sub(r'\[[A-Z]+\]', '', soup.h3.text)`. -/
def Article.titleFind (frag : Node) : Except Exc (Option String) :=
  match List.find? (fun d => d.tag == some "h3") frag.descendants with
  | none => .error .attributeError
  | some h3 => .ok (some (stripCaps (Node.text_of h3)))

/-- `authors` (line 197): `soup.find(class_='gs_a').text.split('-')[0]`. -/
def Article.authorsFind (frag : Node) : Except Exc (Option String) :=
  match List.find? (fun d => hasClassToken d "gs_a") frag.descendants with
  | none => .error .attributeError
  | some t => .ok (some (((Node.text_of t).splitOn "-").headD ""))

/-- `year` (line 198):
`re.search(r'\b\d{4}\b', soup.find(class_='gs_a').text).group(0)`. -/
def Article.yearFind (frag : Node) : Except Exc (Option String) :=
  match List.find? (fun d => hasClassToken d "gs_a") frag.descendants with
  | none => .error .attributeError
  | some t =>
    match find4digit (Node.text_of t) with
    | none => .error .attributeError
    | some y => .ok (some y)

/-- `num_citations` (line 199):
`re.search(r'Cited by ([0-9]+)', soup.text).group(1)`. -/
def Article.numCitationsFind (frag : Node) : Except Exc (Option String) :=
  match citedByNum (Node.text_of frag) with
  | none => .error .attributeError
  | some d => .ok (some d)

/-- `num_versions` (line 200):
`re.search(r'All ([0-9]+) versions', soup.text).group(1)`. -/
def Article.numVersionsFind (frag : Node) : Except Exc (Option String) :=
  match allVersionsNum (Node.text_of frag) with
  | none => .error .attributeError
  | some d => .ok (some d)

/-- The `href` filter `re.compile(r'.pdf$')`: some character followed by
`pdf` at the end of the value. -/
def hrefDotPdf (h : String) : Bool := h.endsWith "pdf" && 4 ≤ h.length

/-- `pdf_url` (line 201):
`soup.find('a', {'href': re.compile(r'.pdf$')})['href']`; a `None` find
makes the subscript raise `TypeError`. -/
def Article.pdfUrlFind (frag : Node) : Except Exc (Option String) :=
  match List.find? (fun d => d.tag == some "a" &&
      (match d.attr "href" with
       | some h => hrefDotPdf h
       | none => false)) frag.descendants with
  | none => .error .typeError
  | some t => .ok (t.attr "href")

/-- `journal_url` (line 202):
`soup.h3.find('a', {'href': re.compile(r'(?<!pdf)$')})['href']`; the
lookbehind accepts every `href` not ending in `pdf`. -/
def Article.journalUrlFind (frag : Node) : Except Exc (Option String) :=
  match List.find? (fun d => d.tag == some "h3") frag.descendants with
  | none => .error .attributeError
  | some h3 =>
    match List.find? (fun d => d.tag == some "a" &&
        (match d.attr "href" with
         | some h => !h.endsWith "pdf"
         | none => false)) h3.descendants with
    | none => .error .typeError
    | some t => .ok (t.attr "href")

/-- `citations_url` (line 203):
`URL_ROOT+soup.find('a', text=re.compile(r'Cited by [0-9]+'))['href']`; the
text filter matches an anchor whose string matches the pattern, and the
subscript raises `KeyError` when that anchor has no `href`. -/
def Article.citationsUrlFind (frag : Node) : Except Exc (Option String) :=
  match List.find? (fun d => d.tag == some "a" &&
      (match d.string with
       | some s => (citedByNum s).isSome
       | none => false)) frag.descendants with
  | none => .error .typeError
  | some t =>
    match t.attr "href" with
    | none => .error .keyError
    | some h => .ok (some (URL_ROOT ++ h))

/-- `versions_url` (line 204):
`URL_ROOT+soup.find('a', text=re.compile(r'All [0-9]+ versions'))['href']`. -/
def Article.versionsUrlFind (frag : Node) : Except Exc (Option String) :=
  match List.find? (fun d => d.tag == some "a" &&
      (match d.string with
       | some s => (allVersionsNum s).isSome
       | none => false)) frag.descendants with
  | none => .error .typeError
  | some t =>
    match t.attr "href" with
    | none => .error .keyError
    | some h => .ok (some (URL_ROOT ++ h))

/-- The `Field`-valued class attributes of `Article`, in `dir()` order
(alphabetical), which is the iteration order of `_fields`. -/
def articleFields : List (String × Field) :=
  [("authors", ⟨Article.authorsFind, .pyStr, .vNone⟩),
   ("citations_url", ⟨Article.citationsUrlFind, .pyStr, .vNone⟩),
   ("journal_url", ⟨Article.journalUrlFind, .pyStr, .vNone⟩),
   ("num_citations", ⟨Article.numCitationsFind, .pyInt, .vNone⟩),
   ("num_versions", ⟨Article.numVersionsFind, .pyInt, .vNone⟩),
   ("pdf_url", ⟨Article.pdfUrlFind, .pyStr, .vNone⟩),
   ("title", ⟨Article.titleFind, .pyStr, .vNone⟩),
   ("versions_url", ⟨Article.versionsUrlFind, .pyStr, .vNone⟩),
   ("year", ⟨Article.yearFind, .pyInt, .vNone⟩)]

/-- The `Article` FieldSet subclass (lines 185-204). -/
def Article : FieldSet := ⟨some Article.find_all, articleFields⟩

/-! ### Concrete fixtures used to evaluate the theorems on explicit inputs -/

/-- A trivially empty fragment. -/
def emptyFrag : Node := Node.text ""

/-- A field whose locator returns the fragment text. -/
def textField : Field := ⟨fun n => .ok (some (Node.text_of n)), .pyStr, .vNone⟩

/-- A test FieldSet whose locator finds three fragments in every document. -/
def w1Cls : FieldSet :=
  ⟨some (fun _ => .ok [Node.text "a", Node.text "b", Node.text "c"]),
   [("title", textField)]⟩

/-- The records of `parse("", w1Cls, 2)`. -/
def w1Out : List Instance := (Parser.parse "" w1Cls 2).toOption.getD []

/-- The three fragments located by `w2Cls`. -/
def w2Frags : List Node := [Node.text "a", Node.text "b", Node.text "c"]

/-- The fragment locator of `w2Cls`. -/
def w2fa : Node → Except Exc (List Node) := fun _ => .ok w2Frags

/-- A test FieldSet locating `w2Frags` in every document. -/
def w2Cls : FieldSet := ⟨some w2fa, [("title", textField)]⟩

/-- The records of `parse("", w2Cls, 10)`. -/
def w2Out : List Instance := (Parser.parse "" w2Cls 10).toOption.getD []

/-- A field whose locator returns `None` on every fragment (it never finds
its target), with a non-`None` default. -/
def w3Field : Field := ⟨fun _ => .ok none, .pyStr, .vStr "none listed"⟩

/-- A test FieldSet declaring only `w3Field`. -/
def w3Cls : FieldSet := ⟨some (fun _ => .ok []), [("authors", w3Field)]⟩

/-- The record instantiated by `w3Cls` on the empty fragment. -/
def w3Rec : Instance := (instantiateOn w3Cls emptyFrag).toOption.getD ⟨[], []⟩

/-- A fragment containing `<a>Cited by 5</a>`: the `citations_url` locator
of `Article` finds the anchor but not its `href`. -/
def c3Frag : Node := Node.elem "div" [] [Node.elem "a" [] [Node.text "Cited by 5"]]

/-- An integer field whose located text is non-numeric. -/
def w4Field : Field := ⟨fun _ => .ok (some "n/a"), .pyInt, .vInt 0⟩

/-- A FieldSet with one integer field whose located raw text is the
non-numeric string `"in press"`. -/
def c4Cls : FieldSet :=
  ⟨some (fun _ => .ok [Node.text ""]),
   [("year", ⟨fun _ => .ok (some "in press"), .pyInt, .vInt 0⟩)]⟩

/-- A FieldSet subclass declaring a `find_all` but zero fields. -/
def c5Cls : FieldSet := ⟨some (fun _ => .ok []), []⟩

/-- A FieldSet subclass lacking the `find_all` attribute. -/
def c6Cls : FieldSet := ⟨none, []⟩

/-- A test FieldSet whose locator matches no fragment in any document. -/
def w7Cls : FieldSet := ⟨some (fun _ => .ok []), [("title", textField)]⟩

/-- A two-field test FieldSet: one locator always fails to find, the other
always succeeds. -/
def w8Cls : FieldSet :=
  ⟨some (fun _ => .ok []),
   [("title", ⟨fun _ => .ok none, .pyStr, .vNone⟩),
    ("year", ⟨fun _ => .ok (some "2004"), .pyInt, .vNone⟩)]⟩

/-- The record instantiated by `w8Cls` on the empty fragment. -/
def w8Rec : Instance := (instantiateOn w8Cls emptyFrag).toOption.getD ⟨[], []⟩

/-- A FieldSet with one integer field whose located text is non-numeric. -/
def c8Cls : FieldSet :=
  ⟨some (fun _ => .ok []),
   [("num_citations", ⟨fun _ => .ok (some "many"), .pyInt, .vNone⟩)]⟩

/-- A concrete one-field record. -/
def w9Inst : Instance := ⟨[("title", textField)], [("title", .vStr "Deep Learning")]⟩

/-- A test FieldSet whose locator finds one fragment in every document. -/
def w10Cls : FieldSet := ⟨some (fun _ => .ok [Node.text "z"]), []⟩

/-- The locator of `f` fails to find its target on `frag`: the
locate-and-strip step signals one of the two "not found" exceptions that
Python's `None` propagation produces — `AttributeError` (a `None` result,
`None.text`, `.group` on a failed `re.search`) or `TypeError`
(`None[...]`). -/
def failsToFind (f : Field) (frag : Node) : Prop :=
  stripped f frag = .error .attributeError ∨ stripped f frag = .error .typeError

/-! ### Association-list lemmas -/

theorem lookup_cons (k : String) (p : String × Value) (rest : List (String × Value)) :
    (p :: rest).lookup k = if k = p.1 then some p.2 else rest.lookup k := by
  obtain ⟨a, b⟩ := p
  by_cases h : k = a
  · subst h
    simp [List.lookup]
  · have hb : (k == a) = false := beq_eq_false_iff_ne.mpr h
    simp [List.lookup, hb, h]

theorem lookup_isSome_iff (vals : List (String × Value)) (k : String) :
    (vals.lookup k).isSome = true ↔ k ∈ vals.map Prod.fst := by
  induction vals with
  | nil => simp [List.lookup]
  | cons p rest ih =>
    rw [lookup_cons, List.map_cons, List.mem_cons]
    by_cases hk : k = p.1
    · simp [hk]
    · simp [hk, ih]

theorem lookup_map_of_fst (g : String → Value) (fs : List (String × Field)) (key : String)
    (h : key ∈ fs.map Prod.fst) :
    (fs.map (fun nf => (nf.1, g nf.1))).lookup key = some (g key) := by
  induction fs with
  | nil => simp at h
  | cons p rest ih =>
    rw [List.map_cons, lookup_cons]
    by_cases hk : key = p.1
    · rw [if_pos hk, hk]
    · rw [if_neg hk]
      refine ih ?_
      rw [List.map_cons, List.mem_cons] at h
      rcases h with h1 | h1
      · exact absurd h1 hk
      · exact h1

theorem names_mapUpdate (vals : List (String × Value)) (n : String) (v : Value) :
    (vals.map (fun p => if p.1 = n then (p.1, v) else p)).map Prod.fst
      = vals.map Prod.fst := by
  induction vals with
  | nil => rfl
  | cons p rest ih => by_cases h : p.1 = n <;> simp [h, ih]

theorem lookup_mapUpdate_self (vals : List (String × Value)) (n : String) (v : Value)
    (h : n ∈ vals.map Prod.fst) :
    (vals.map (fun p => if p.1 = n then (p.1, v) else p)).lookup n = some v := by
  induction vals with
  | nil => simp at h
  | cons p rest ih =>
    rw [List.map_cons]
    by_cases ha : p.1 = n
    · rw [if_pos ha, lookup_cons]
      simp [ha]
    · rw [if_neg ha, lookup_cons]
      have hna : ¬(n = p.1) := fun he => ha he.symm
      rw [if_neg hna]
      refine ih ?_
      rw [List.map_cons, List.mem_cons] at h
      rcases h with h1 | h1
      · exact absurd h1 hna
      · exact h1

theorem lookup_mapUpdate_other (vals : List (String × Value)) (n : String) (v : Value)
    (k : String) (hk : k ≠ n) :
    (vals.map (fun p => if p.1 = n then (p.1, v) else p)).lookup k = vals.lookup k := by
  induction vals with
  | nil => rfl
  | cons p rest ih =>
    rw [List.map_cons, lookup_cons k p rest]
    by_cases ha : p.1 = n
    · rw [if_pos ha, lookup_cons]
      have hka : ¬(k = (p.1, v).1) := by
        simpa using fun he => hk (he.trans ha)
      rw [if_neg hka]
      have hka2 : ¬(k = p.1) := by simpa using hka
      rw [if_neg hka2, ih]
    · rw [if_neg ha, lookup_cons]
      by_cases hka : k = p.1
      · rw [if_pos hka, if_pos hka]
      · rw [if_neg hka, if_neg hka, ih]

theorem lookup_append_single (vals : List (String × Value)) (n : String) (v : Value)
    (k : String) (hk : k ≠ n) :
    (vals ++ [(n, v)]).lookup k = vals.lookup k := by
  induction vals with
  | nil =>
    show [(n, v)].lookup k = List.lookup k []
    rw [lookup_cons]
    simp [List.lookup, hk]
  | cons p rest ih =>
    rw [List.cons_append, lookup_cons, lookup_cons]
    by_cases hka : k = p.1
    · rw [if_pos hka, if_pos hka]
    · rw [if_neg hka, if_neg hka, ih]

theorem setattrV_names (vals : List (String × Value)) (n : String) (v : Value)
    (h : n ∈ vals.map Prod.fst) :
    (setattrV vals n v).map Prod.fst = vals.map Prod.fst := by
  unfold setattrV
  rw [if_pos ((lookup_isSome_iff vals n).mpr h)]
  exact names_mapUpdate vals n v

theorem setattrV_lookup_self (vals : List (String × Value)) (n : String) (v : Value)
    (h : n ∈ vals.map Prod.fst) :
    (setattrV vals n v).lookup n = some v := by
  unfold setattrV
  rw [if_pos ((lookup_isSome_iff vals n).mpr h)]
  exact lookup_mapUpdate_self vals n v h

theorem setattrV_lookup_other (vals : List (String × Value)) (n : String) (v : Value)
    (k : String) (hk : k ≠ n) :
    (setattrV vals n v).lookup k = vals.lookup k := by
  unfold setattrV
  split
  · exact lookup_mapUpdate_other vals n v k hk
  · exact lookup_append_single vals n v k hk

/-! ### Lemmas about the instantiation loop -/

theorem applyFields_fields (frag : Node) (fs : List (String × Field)) :
    ∀ (inst rec : Instance), applyFields frag fs inst = .ok rec →
      rec.fields = inst.fields := by
  induction fs with
  | nil =>
    intro inst rec h
    cases h; rfl
  | cons nf rest ih =>
    intro inst rec h
    unfold applyFields at h
    split at h
    · cases h
    · rename_i v hv
      exact ih ⟨inst.fields, setattrV inst.values nf.1 v⟩ rec h

theorem applyFields_names (frag : Node) (fs : List (String × Field)) :
    ∀ (inst rec : Instance),
      (∀ nf ∈ fs, nf.1 ∈ inst.values.map Prod.fst) →
      applyFields frag fs inst = .ok rec →
      rec.values.map Prod.fst = inst.values.map Prod.fst := by
  induction fs with
  | nil =>
    intro inst rec _ h
    cases h; rfl
  | cons nf rest ih =>
    intro inst rec hsub h
    unfold applyFields at h
    split at h
    · cases h
    · rename_i v hv
      have hn : nf.1 ∈ inst.values.map Prod.fst := hsub nf (List.mem_cons_self nf rest)
      have hnames := setattrV_names inst.values nf.1 v hn
      have hsub' : ∀ g ∈ rest,
          g.1 ∈ (Instance.mk inst.fields (setattrV inst.values nf.1 v)).values.map Prod.fst := by
        intro g hg
        show g.1 ∈ (setattrV inst.values nf.1 v).map Prod.fst
        rw [hnames]
        exact hsub g (List.mem_cons_of_mem nf hg)
      have hres := ih _ rec hsub' h
      rw [hres]
      exact hnames

theorem applyFields_lookup_notin (frag : Node) (fs : List (String × Field)) (k : String) :
    ∀ (inst rec : Instance), k ∉ fs.map Prod.fst →
      applyFields frag fs inst = .ok rec →
      rec.values.lookup k = inst.values.lookup k := by
  induction fs with
  | nil =>
    intro inst rec _ h
    cases h; rfl
  | cons nf rest ih =>
    intro inst rec hk h
    unfold applyFields at h
    split at h
    · cases h
    · rename_i v hv
      have hk1 : k ≠ nf.1 := by
        intro he; exact hk (by simp [he])
      have hk2 : k ∉ rest.map Prod.fst := by
        intro he; exact hk (by simp [he])
      have hres := ih _ rec hk2 h
      rw [hres]
      exact setattrV_lookup_other inst.values nf.1 v k hk1

theorem applyFields_lookup_mem (frag : Node) (fs : List (String × Field))
    (name : String) (f : Field) :
    ∀ (inst rec : Instance),
      (fs.map Prod.fst).Nodup →
      (∀ nf ∈ fs, nf.1 ∈ inst.values.map Prod.fst) →
      (name, f) ∈ fs →
      applyFields frag fs inst = .ok rec →
      ∃ v, extractValue f frag = .ok v ∧ rec.values.lookup name = some v := by
  induction fs with
  | nil =>
    intro inst rec _ _ hmem _
    cases hmem
  | cons nf rest ih =>
    intro inst rec hnd hsub hmem h
    unfold applyFields at h
    split at h
    · cases h
    · rename_i v hv
      rw [List.map_cons] at hnd
      have hnd' := List.nodup_cons.mp hnd
      rcases List.mem_cons.mp hmem with heq | hrest
      · have hname : name = nf.1 := congrArg Prod.fst heq
        have hf : f = nf.2 := congrArg Prod.snd heq
        refine ⟨v, by rw [hf]; exact hv, ?_⟩
        have hnotin : name ∉ rest.map Prod.fst := by rw [hname]; exact hnd'.1
        have hstep := applyFields_lookup_notin frag rest name _ rec hnotin h
        rw [hstep]
        show (setattrV inst.values nf.1 v).lookup name = some v
        rw [hname]
        exact setattrV_lookup_self inst.values nf.1 v
          (hsub nf (List.mem_cons_self nf rest))
      · have hn : nf.1 ∈ inst.values.map Prod.fst := hsub nf (List.mem_cons_self nf rest)
        have hnames := setattrV_names inst.values nf.1 v hn
        have hsub' : ∀ g ∈ rest,
            g.1 ∈ (Instance.mk inst.fields (setattrV inst.values nf.1 v)).values.map Prod.fst := by
          intro g hg
          show g.1 ∈ (setattrV inst.values nf.1 v).map Prod.fst
          rw [hnames]
          exact hsub g (List.mem_cons_of_mem nf hg)
        exact ih _ rec hnd'.2 hsub' hrest h

/-! ### Lemmas about the parse loop -/

theorem parseMatches_length (cls : FieldSet) (xs : List Node) :
    ∀ (ys : List Instance), parseMatches cls xs = .ok ys → ys.length = xs.length := by
  induction xs with
  | nil =>
    intro ys h
    cases h; rfl
  | cons m ms ih =>
    intro ys h
    unfold parseMatches at h
    split at h
    · cases h
    · rename_i inst hinst
      split at h
      · cases h
      · rename_i rest hrest
        cases h
        simp [ih rest hrest]

theorem parseMatches_get (cls : FieldSet) (xs : List Node) :
    ∀ (ys : List Instance), parseMatches cls xs = .ok ys →
      ∀ (i : Nat) (hx : i < xs.length) (hy : i < ys.length),
      instantiateOn cls xs[i] = .ok ys[i] := by
  induction xs with
  | nil =>
    intro ys h i hx hy
    exact absurd hx (by simp)
  | cons m ms ih =>
    intro ys h i hx hy
    unfold parseMatches at h
    split at h
    · cases h
    · rename_i inst hinst
      split at h
      · cases h
      · rename_i rest hrest
        cases h
        cases i with
        | zero => simpa using hinst
        | succ j =>
          have hx' : j < ms.length := by simpa using hx
          have hy' : j < rest.length := by simpa using hy
          simpa using ih rest hrest j hx' hy'


/-! ### Claim theorems -/

/-- C1: for every HTML input, every schema and every `max_results = n ≥ 0`,
a record sequence returned by `Parser.parse html schema n` has length at
most `n`, even when the document contains more than `n` matching
fragments. -/
theorem parse_length_le_max (html : String) (cls : FieldSet) (n : Int) (hn : 0 ≤ n)
    (rs : List Instance) (h : Parser.parse html cls n = .ok rs) :
    (rs.length : Int) ≤ n := by
  simp only [Parser.parse] at h
  split at h
  · cases h
  · split at h
    · cases h
    · have hlen := parseMatches_length cls _ rs h
      rw [List.length_take] at hlen
      omega

/-- C1 witness: `parse("", w1Cls, 2)` with three available fragments. -/
theorem parse_length_le_max_witness : (0 : Int) ≤ 2 ∧ ((w1Out.length : Int) ≤ 2) :=
  ⟨by decide, parse_length_le_max "" w1Cls 2 (by decide) w1Out rfl⟩

/-- C2: a record sequence returned by `Parser.parse` lists, in document
order, the instantiation of exactly the first `min(n, k)` of the `k`
located fragments. -/
theorem parse_preserves_document_order (html : String) (cls : FieldSet)
    (fa : Node → Except Exc (List Node)) (n : Int) (frags : List Node)
    (rs : List Instance)
    (hfa : cls.find_all = some fa)
    (hfrags : fa (BeautifulSoup html) = .ok frags)
    (h : Parser.parse html cls n = .ok rs) :
    rs.length = min n.toNat frags.length ∧
    ∀ (i : Nat) (hi : i < rs.length), ∃ hf : i < frags.length,
      instantiateOn cls frags[i] = .ok rs[i] := by
  simp only [Parser.parse] at h
  split at h
  · rename_i heq
    rw [hfa] at heq
    cases heq
  · rename_i fa2 heq
    rw [hfa] at heq
    cases heq
    split at h
    · cases h
    · rename_i ms hms
      rw [hfrags] at hms
      cases hms
      have hlen := parseMatches_length cls _ rs h
      rw [List.length_take] at hlen
      refine ⟨hlen, ?_⟩
      intro i hi
      have hf : i < frags.length := by omega
      refine ⟨hf, ?_⟩
      have hx : i < (frags.take n.toNat).length := by
        rw [List.length_take]; omega
      have hg := parseMatches_get cls _ rs h i hx hi
      rwa [List.getElem_take] at hg

/-- C2 witness: `parse("", w2Cls, 10)` over three located fragments returns
`min(10, 3)` records. -/
theorem parse_preserves_document_order_witness :
    w2Out.length = min (10 : Int).toNat w2Frags.length :=
  (parse_preserves_document_order "" w2Cls w2fa 10 w2Frags w2Out rfl rfl rfl).1


/-- C3 counterexample: on a fragment holding `<a>Cited by 5</a>`, the
`citations_url` locator of `Article` fails to find its target (the anchor
has no `href`), yet instead of a record carrying the field's default,
instantiation raises `KeyError` — only `TypeError` and `AttributeError`
are absorbed by the per-field handler. -/
theorem locator_failure_can_escape_cex :
    instantiateOn Article c3Frag = .error .keyError := rfl

/-- C3 (amended): a locator failure signalled through the "not found"
channel — a `None` result, an `AttributeError` or a `TypeError` — is
absorbed: that field's extraction yields its declared default with no
error, and any record returned by instantiating the schema on the fragment
binds the field to that default.  (A locator failing with any other
exception, e.g. `KeyError`, instead propagates out of instantiation.) -/
theorem locator_notfound_defaults (cls : FieldSet) (frag : Node)
    (name : String) (f : Field)
    (hnd : (cls.fields.map Prod.fst).Nodup)
    (hmem : (name, f) ∈ cls.fields)
    (hfail : failsToFind f frag) :
    extractValue f frag = .ok f.default ∧
    ∀ rec, instantiateOn cls frag = .ok rec →
      rec.values.lookup name = some f.default := by
  have h1 : extractValue f frag = .ok f.default := by
    unfold extractValue locateCoerce
    rcases hfail with hf | hf <;> rw [hf]
  refine ⟨h1, ?_⟩
  intro rec hrec
  unfold instantiateOn at hrec
  split at hrec
  · cases hrec
  · rename_i inst hinit
    unfold FieldSet.init at hinit
    split at hinit
    · cases hinit
    · cases hinit
      have hsub : ∀ nf ∈ cls.fields,
          nf.1 ∈ (cls.fields.map (fun nf => (nf.1, nf.2.default))).map Prod.fst := by
        intro nf hnf
        rw [List.map_map]
        exact List.mem_map_of_mem _ hnf
      have hh := applyFields_lookup_mem frag cls.fields name f _ rec hnd hsub hmem hrec
      rcases hh with ⟨v, hv, hlook⟩
      rw [h1] at hv
      cases hv
      exact hlook

/-- C3 witness: a field whose locator always returns `None` on the empty
fragment — extraction yields its default, and the instantiated record
binds `authors` to it. -/
theorem locator_notfound_defaults_witness :
    extractValue w3Field emptyFrag = .ok (.vStr "none listed") ∧
    w3Rec.values.lookup "authors" = some (.vStr "none listed") :=
  ⟨(locator_notfound_defaults w3Cls emptyFrag "authors" w3Field (by decide)
      (List.mem_cons_self _ _) (Or.inl rfl)).1,
   (locator_notfound_defaults w3Cls emptyFrag "authors" w3Field (by decide)
      (List.mem_cons_self _ _) (Or.inl rfl)).2 w3Rec rfl⟩

/-- C4 counterexample: an integer field whose located raw text is the
non-numeric string `"in press"`: the `int()` coercion raises `ValueError`,
which the `except (TypeError, AttributeError)` clause does not catch — the
caller of `parse` sees the exception, not a defaulted record. -/
theorem nonnumeric_coercion_cex :
    Parser.parse "x" c4Cls 10 = .error .valueError := rfl

/-- C4 (amended): a numeric coercion failure is NOT treated like "not
found": for an integer field whose locator returns non-numeric text, the
extraction step raises `ValueError` (which propagates to the caller)
rather than substituting the declared default. -/
theorem int_coercion_valueerror_propagates (f : Field) (frag : Node) (s : String)
    (ht : f.type = .pyInt) (hf : f.find frag = .ok (some s))
    (hn : pyInt? (pyStrip s) = none) :
    extractValue f frag = .error .valueError := by
  have hs : stripped f frag = .ok (pyStrip s) := by
    unfold stripped
    rw [hf]
  have hlc : locateCoerce f frag = .error .valueError := by
    unfold locateCoerce
    rw [hs]
    show f.type.call (pyStrip s) = .error .valueError
    rw [ht]
    show (match pyInt? (pyStrip s) with
      | some n => Except.ok (Value.vInt n)
      | none => Except.error Exc.valueError) = .error .valueError
    rw [hn]
  unfold extractValue
  rw [hlc]

/-- C4 witness: the amended theorem at `w4Field` (locates `"n/a"`, typed
`int`) on the empty fragment. -/
theorem int_coercion_valueerror_propagates_witness :
    extractValue w4Field emptyFrag = .error .valueError :=
  int_coercion_valueerror_propagates w4Field emptyFrag "n/a" rfl rfl rfl

/-- C5 counterexample: a schema declaring zero fields (but providing
`find_all`) is accepted by `FieldSet.__init__` — construction returns an
instance, raising nothing; the code has no `SchemaDefinitionError` and
performs no zero-field check. -/
theorem zero_fields_schema_accepted_cex :
    FieldSet.init c5Cls = .ok ⟨[], []⟩ := rfl

/-- C5 (amended): construction-time validation checks only the presence of
`find_all`: a schema with zero declared fields and a fragment locator is
accepted, while any schema lacking the locator fails — with
`AttributeError`, the only schema-definition error the code has. -/
theorem init_zero_fields_accepted (fa : Node → Except Exc (List Node)) :
    FieldSet.init ⟨some fa, []⟩ = .ok ⟨[], []⟩ ∧
    ∀ fs : List (String × Field),
      FieldSet.init ⟨none, fs⟩ = .error .attributeError :=
  ⟨rfl, fun _ => rfl⟩

/-- C6 (amended): a schema lacking `find_all` is rejected with
`AttributeError` when it is used — constructing an instance raises in
`FieldSet.__init__`, and `parse` raises when it reads the missing
attribute — but nothing validates the schema before that first use. -/
theorem missing_find_all_rejected_at_use (cls : FieldSet) (h : cls.find_all = none) :
    FieldSet.init cls = .error .attributeError ∧
    ∀ (html : String) (n : Int),
      Parser.parse html cls n = .error .attributeError := by
  constructor
  · simp only [FieldSet.init, h]
  · intro html n
    simp only [Parser.parse, h]

/-- C6 witness: the amended theorem at the concrete locator-less schema. -/
theorem missing_find_all_rejected_at_use_witness :
    FieldSet.init c6Cls = .error .attributeError ∧
    Parser.parse "x" c6Cls 3 = .error .attributeError :=
  ⟨(missing_find_all_rejected_at_use c6Cls rfl).1,
   (missing_find_all_rejected_at_use c6Cls rfl).2 "x" 3⟩

/-- C6 counterexample: the rejection is not performed at schema
definition time — the locator-less schema value exists unvalidated (its
definition raised nothing), and the `AttributeError` is raised by the
`parse` call that first uses it. -/
theorem missing_find_all_deferred_cex :
    Parser.parse "<p></p>" c6Cls 10 = .error .attributeError := rfl


/-- C7 counterexample: the empty string — input with no parseable document
content — makes `parse` with the `Article` schema raise `AttributeError`
(the document has no `role="main"` element, so `find_all` is called on
`None`) instead of returning an empty sequence. -/
theorem parse_empty_input_raises_cex :
    Parser.parse "" Article 10 = .error .attributeError := rfl

/-- C7 (amended): when the schema's fragment locator runs successfully and
finds no fragments, `parse` returns the empty sequence; but on input that
yields a document without a main region — the empty string in particular —
the `Article` locator itself raises `AttributeError`, and that error
propagates out of `parse` instead of an empty result. -/
theorem parse_unparsable_behavior :
    (∀ (html : String) (cls : FieldSet) (fa : Node → Except Exc (List Node)) (n : Int),
      cls.find_all = some fa → fa (BeautifulSoup html) = .ok [] →
      Parser.parse html cls n = .ok []) ∧
    (∀ n : Int, Parser.parse "" Article n = .error .attributeError) := by
  constructor
  · intro html cls fa n hfa hfr
    simp only [Parser.parse, hfa, hfr, List.take_nil, parseMatches]
  · intro n
    rfl

/-- C7 witness: a locator with no matches yields `ok []`; the `Article`
schema on the empty string raises. -/
theorem parse_unparsable_behavior_witness :
    Parser.parse "zz" w7Cls 5 = .ok [] ∧
    Parser.parse "" Article 7 = .error .attributeError :=
  ⟨parse_unparsable_behavior.1 "zz" w7Cls _ 5 rfl rfl,
   parse_unparsable_behavior.2 7⟩

/-- C8 counterexample: instantiation is not total — on the trivially empty
fragment, a schema whose integer field locates the non-numeric text
`"many"` makes instantiation raise `ValueError` instead of returning a
record with every declared field present. -/
theorem instantiate_not_total_cex :
    instantiateOn c8Cls emptyFrag = .error .valueError := rfl

/-- C8 (amended): whenever instantiating the schema on a fragment does
return a record, the record carries the declared descriptors and binds
exactly the declared field names, in declaration order (each to an
extracted value or to the field default). -/
theorem instantiate_ok_all_fields_present (cls : FieldSet) (frag : Node)
    (rec : Instance) (h : instantiateOn cls frag = .ok rec) :
    rec.fields = cls.fields ∧
    rec.values.map Prod.fst = cls.fields.map Prod.fst := by
  unfold instantiateOn at h
  split at h
  · cases h
  · rename_i inst hinit
    unfold FieldSet.init at hinit
    split at hinit
    · cases hinit
    · cases hinit
      constructor
      · exact applyFields_fields frag cls.fields _ rec h
      · have hsub : ∀ nf ∈ cls.fields,
            nf.1 ∈ (cls.fields.map (fun nf => (nf.1, nf.2.default))).map Prod.fst := by
          intro nf hnf
          rw [List.map_map]
          exact List.mem_map_of_mem _ hnf
        have hres := applyFields_names frag cls.fields _ rec hsub h
        rw [hres, List.map_map]
        exact List.map_eq_map_iff.mpr fun a _ => rfl

/-- C8 witness: the two-field schema `w8Cls` instantiated on the trivially
empty fragment returns a record binding both declared names in order. -/
theorem instantiate_ok_all_fields_present_witness :
    w8Rec.fields = w8Cls.fields ∧
    w8Rec.values.map Prod.fst = w8Cls.fields.map Prod.fst :=
  instantiate_ok_all_fields_present w8Cls emptyFrag w8Rec rfl

/-- C9: `dumps` with no recognized format returns the raw
field-name-to-value dictionary of the record — exactly the mapping the
record holds for its declared fields — and re-reading that dictionary into
a record and exporting it again reproduces the same output (idempotent
structural export). -/
theorem dumps_plain_roundtrip (inst : Instance) (fmt : Option String)
    (h1 : fmt ≠ some "json") (h2 : fmt ≠ some "pickle") :
    FieldSet.dumps inst fmt = .dict (recordMap inst) ∧
    FieldSet.dumps ⟨inst.fields, recordMap inst⟩ fmt = FieldSet.dumps inst fmt := by
  have hcase : ∀ (j : Instance),
      FieldSet.dumps j fmt = .dict (j.fields.map (fun nf => (nf.1, j.getattr nf.1))) := by
    intro j
    simp only [FieldSet.dumps]
  have hmap : (⟨inst.fields, recordMap inst⟩ : Instance).fields.map
        (fun nf => (nf.1, (⟨inst.fields, recordMap inst⟩ : Instance).getattr nf.1))
      = inst.fields.map (fun nf => (nf.1, inst.getattr nf.1)) := by
    apply List.map_eq_map_iff.mpr
    intro nf hnf
    have hlk : (recordMap inst).lookup nf.1 = some (inst.getattr nf.1) :=
      lookup_map_of_fst (fun k => inst.getattr k) inst.fields nf.1
        (List.mem_map_of_mem _ hnf)
    show (nf.1, Instance.getattr ⟨inst.fields, recordMap inst⟩ nf.1)
        = (nf.1, inst.getattr nf.1)
    unfold Instance.getattr
    rw [show (Instance.mk inst.fields (recordMap inst)).values = recordMap inst from rfl,
      hlk]
    rfl
  constructor
  · exact hcase inst
  · rw [hcase ⟨inst.fields, recordMap inst⟩, hcase inst]
    exact congrArg Dumped.dict hmap

/-- C9 witness: the round trip on a concrete one-field record with the
unrecognized format `none`. -/
theorem dumps_plain_roundtrip_witness :
    FieldSet.dumps w9Inst none = .dict [("title", Value.vStr "Deep Learning")] ∧
    FieldSet.dumps ⟨w9Inst.fields, recordMap w9Inst⟩ none = FieldSet.dumps w9Inst none :=
  ⟨(dumps_plain_roundtrip w9Inst none (by decide) (by decide)).1,
   (dumps_plain_roundtrip w9Inst none (by decide) (by decide)).2⟩

/-- C10 counterexample: `parse` with the `Article` schema on the empty
string and `max_results = 0` does not return an empty sequence — the
fragment locator still runs before the cap is consulted, and its
`AttributeError` propagates. -/
theorem parse_nonpos_cap_cex :
    Parser.parse "" Article 0 = .error .attributeError := rfl

/-- C10 (amended): when the fragment locator succeeds, a cap `n ≤ 0`
(`zip(range(0, n), ...)` is empty) yields the empty record sequence without
instantiating any fragment — for every schema and every located fragment
list; but the locator is still invoked, so its failure propagates
regardless of the cap. -/
theorem parse_nonpos_cap_empty (html : String) (cls : FieldSet)
    (fa : Node → Except Exc (List Node)) (frags : List Node) (n : Int)
    (hn : n ≤ 0) (hfa : cls.find_all = some fa)
    (hfr : fa (BeautifulSoup html) = .ok frags) :
    Parser.parse html cls n = .ok [] := by
  have h0 : n.toNat = 0 := by omega
  simp only [Parser.parse, hfa, hfr, h0, List.take_zero, parseMatches]

/-- C10 witness: a negative cap over a schema whose locator finds one
fragment. -/
theorem parse_nonpos_cap_empty_witness :
    Parser.parse "" w10Cls (-3) = .ok [] :=
  parse_nonpos_cap_empty "" w10Cls _ _ (-3) (by decide) rfl rfl

end Scholar
